import Mathlib

/-!
Verification development for the `pl-lld_chxr` ChRIS plugin (`lld_chxr.py`).

The development shallowly embeds the validation core of the plugin:

* `similar`        — `similar` (lld_chxr.py lines 227-248), the
                     `difflib.SequenceMatcher(None, a.lower(), b.lower()).ratio()`
                     similarity score, modelled over `List Char` with exact
                     rational arithmetic in place of IEEE floats;
* `extractUnit?` / `extractPercent?`
                   — the `re.search(r"\d+ \w+", ...)` unit extraction and the
                     `re.search(r"\d+\.\d+%", ...)` percentage extraction
                     (lines 196-212), returning `none` exactly when the Python
                     regex search returns `None` (in the source that `None`
                     then crashes on `.group()`);
* `tagInfo_to_tagStruct`
                   — the tag-specification parser (lines 133-159);
* `analyze_measurements`
                   — the validation engine (lines 161-223), with the
                     uncaught Python exceptions of the source modelled as
                     `Except.error`.

Machine floats of the source are modelled as `ℚ`; the rounded decimal
comparisons performed by the source involve only values and thresholds that
are exactly representable in the comparisons the claims exercise.
-/

namespace LLD

/-! Section: SequenceMatcher (difflib) on lower-cased character lists

`difflib.SequenceMatcher` with `isjunk=None` computes, for strings shorter
than the autojunk threshold (200 characters), the Ratcliff–Obershelp ratio:
repeatedly take the longest matching contiguous block (ties broken by the
earliest start in `a`, then the earliest start in `b`), recurse left and
right of it, and return `2*M/T` where `M` is the total matched length and
`T` the sum of lengths.  `matchSum` uses a fuel argument bounded by
`a.length + b.length`, which is always sufficient: each recursive call
strictly decreases the combined window length.  -/

/-- Length of the longest common prefix of two character lists. -/
def commonPrefixLen : List Char → List Char → Nat
  | a :: as, b :: bs => if a = b then commonPrefixLen as bs + 1 else 0
  | _, _ => 0

/-- Keep the earlier candidate unless the later one is strictly longer
(difflib keeps the earliest maximal block). Candidates are `(i, j, k)`:
start in `a`, start in `b`, block length. -/
def pickMax (x y : Nat × Nat × Nat) : Nat × Nat × Nat :=
  if x.2.2 < y.2.2 then y else x

/-- Best matching block among candidates `(i, j), (i, j+1), ...` for a fixed
suffix `ai` of `a`, scanning the suffixes `bs` of `b`. -/
def rowBest (i j : Nat) (ai : List Char) (bs : List Char) : Nat × Nat × Nat :=
  match bs with
  | [] => (i, j, commonPrefixLen ai [])
  | _ :: rest => pickMax (i, j, commonPrefixLen ai bs) (rowBest i (j + 1) ai rest)

/-- Best matching block scanning the suffixes `as` of `a` from row `i` on. -/
def colBest (i : Nat) (b : List Char) (as : List Char) : Nat × Nat × Nat :=
  match as with
  | [] => rowBest i 0 as b
  | _ :: rest => pickMax (rowBest i 0 as b) (colBest (i + 1) b rest)

/-- The `find_longest_match` step over the whole of `a` and `b`: the longest common
contiguous block, earliest in `a` then earliest in `b` on ties. -/
def bestMatch (a b : List Char) : Nat × Nat × Nat :=
  colBest 0 b a

/-- Total size of all matching blocks (`get_matching_blocks` recursion):
take the best block, recurse on the pieces left and right of it. -/
def matchSum : Nat → List Char → List Char → Nat
  | 0, _, _ => 0
  | fuel + 1, a, b =>
    let m := bestMatch a b
    if m.2.2 = 0 then 0
    else
      matchSum fuel (a.take m.1) (b.take m.2.1) + m.2.2 +
        matchSum fuel (a.drop (m.1 + m.2.2)) (b.drop (m.2.1 + m.2.2))

/-- The `SequenceMatcher.ratio()` value: `2*M/T`, and `1` when both inputs are empty
(the difflib `_calculate_ratio` convention). `mkRat` is used so the value is
kernel-computable. -/
def ratioQ (a b : List Char) : ℚ :=
  if a.length + b.length = 0 then 1
  else mkRat (2 * matchSum (a.length + b.length) a b) (a.length + b.length)

/-- Lower-casing `a.lower()` as a character list. -/
def pyLower (s : String) : List Char :=
  s.data.map Char.toLower

/-- The function `similar(a, b)` (lld_chxr.py lines 227-248):
`SequenceMatcher(None, a.lower(), b.lower()).ratio()`. -/
def similar (a b : String) : ℚ :=
  ratioQ (pyLower a) (pyLower b)

/-! Section: regex extraction (lld_chxr.py lines 196-212)

`re.search(r"\d+ \w+", text)` and `re.search(r"\d+\.\d+%", text)` with
the Python scan-from-each-position semantics.  Because the character after a
maximal digit run is never a digit, the greedy `\d+` never needs to
backtrack, so matching a maximal digit run and then the literal is exact.
`\d` and `\w` are modelled over ASCII (`Char.isDigit`,
alphanumeric-or-underscore); the Difference texts the plugin parses are
ASCII. -/

/-- Word characters `\w`: alphanumeric or underscore. -/
def isWordChar (c : Char) : Bool := c.isAlphanum || c == '_'

/-- Try pattern `\d+ \w+` anchored at the start of `l`; on success return
the `\w+` token, which is what `match.split()[1]` on line 198 produces. -/
def unitMatchAt (l : List Char) : Option String :=
  let ds := l.takeWhile Char.isDigit
  if ds.isEmpty then none
  else
    match l.drop ds.length with
    | ' ' :: rest =>
      let ws := rest.takeWhile isWordChar
      if ws.isEmpty then none else some (String.mk ws)
    | _ => none

/-- Value of a digit run as a natural number. -/
def digitsToNat (l : List Char) : Nat :=
  l.foldl (fun n c => 10 * n + (c.toNat - 48)) 0

/-- Try pattern `\d+\.\d+%` anchored at the start of `l`; on success return
`float(matched text with the % stripped)` as the exact rational
`(ds·10^|fs| + fs) / 10^|fs|` (lines 207-212 strip `%` and call `float`). -/
def percentMatchAt (l : List Char) : Option ℚ :=
  let ds := l.takeWhile Char.isDigit
  if ds.isEmpty then none
  else
    match l.drop ds.length with
    | '.' :: rest =>
      let fs := rest.takeWhile Char.isDigit
      if fs.isEmpty then none
      else
        match rest.drop fs.length with
        | '%' :: _ => some (mkRat (digitsToNat (ds ++ fs)) (10 ^ fs.length))
        | _ => none
    | _ => none

/-- Scanning `re.search`: try the anchored matcher at every start position, left to
right; `none` exactly when the Python `re.search` returns `None`. -/
def reSearch {α : Type} (f : List Char → Option α) : List Char → Option α
  | [] => none
  | c :: rest =>
    match f (c :: rest) with
    | some x => some x
    | none => reSearch f rest

/-- Unit extraction from a Difference text: the `\w+` token of the first
`\d+ \w+` match (lines 197-198). -/
def extractUnit? (s : String) : Option String :=
  reSearch unitMatchAt s.data

/-- Percentage extraction from a Difference text: the first `\d+\.\d+%`
match with `%` stripped, parsed as a number (lines 207-212). -/
def extractPercent? (s : String) : Option ℚ :=
  reSearch percentMatchAt s.data

/-! Section: tag specification parsing (`tagInfo_to_tagStruct`, lines 133-159)

The Python `str.split(sep)` (non-empty separator) and `str.strip()` are
implemented structurally so that concrete runs kernel-reduce; the source is
only ever called with the operator-supplied non-empty delimiters (with an
empty separator the Python `split` raises `ValueError`, a case no claim
exercises). -/

/-- Does `l` start with `sep`? -/
def leadsWith : List Char → List Char → Bool
  | [], _ => true
  | _ :: _, [] => false
  | a :: as, b :: bs => a == b && leadsWith as bs

/-- Worker for `pySplit`; `fuel ≥ l.length` suffices since every step
consumes at least one character of `l`. -/
def pySplitAux (sep : List Char) : Nat → List Char → List Char → List (List Char)
  | _, [], acc => [acc.reverse]
  | 0, l, acc => [acc.reverse ++ l]
  | fuel + 1, c :: rest, acc =>
    if leadsWith sep (c :: rest) then
      acc.reverse :: pySplitAux sep fuel ((c :: rest).drop sep.length) []
    else
      pySplitAux sep fuel rest (c :: acc)

/-- Python `l.split(sep)` for a non-empty separator. -/
def pySplit (sep l : List Char) : List (List Char) :=
  pySplitAux sep l.length l []

/-- Python `str.strip()`: remove leading and trailing whitespace. -/
def pyStrip (l : List Char) : List Char :=
  ((l.dropWhile Char.isWhitespace).reverse.dropWhile Char.isWhitespace).reverse

/-- Python `d[k] = v` on an insertion-ordered dict modelled as an
association list: overwrite in place, else append. -/
def dictInsert (d : List (String × String)) (k v : String) : List (String × String) :=
  if d.any (fun p => p.1 == k) then d.map (fun p => if p.1 == k then (k, v) else p)
  else d ++ [(k, v)]

/-- The `for f in l_s` loop body of lines 150-153: split the chunk on the
key/value separator, strip the parts, and take parts `[0]` and `[1]`.
A chunk with fewer than two parts raises `IndexError`, caught by the bare
`except` of line 154 which abandons the whole parse (`none`); parts beyond
the second are silently ignored by the source. -/
def tagGo (splitKeyValue : String) :
    List (List Char) → List (String × String) → Option (List (String × String))
  | [], d => some d
  | f :: rest, d =>
    match (pySplit splitKeyValue.data f).map pyStrip with
    | k :: v :: _ => tagGo splitKeyValue rest (dictInsert d (String.mk k) (String.mk v))
    | _ => none

/-- The function `tagInfo_to_tagStruct` (lines 133-159): split the spec on the pair
separator, strip each chunk, then convert each chunk to a key/value pair.
Returns `none` both when `tagInfo` is empty (the function falls through
and returns `None`) and when the `except` path of line 154 is taken. -/
def tagInfo_to_tagStruct (tagInfo splitToken splitKeyValue : String) :
    Option (List (String × String)) :=
  if tagInfo = "" then none
  else tagGo splitKeyValue ((pySplit splitToken.data tagInfo.data).map pyStrip) []

/-! Section: tag matching and the validation engine (lines 161-223) -/

/-- Containment of `needle` as a contiguous sublist of the second list. -/
def containsSub (needle : List Char) : List Char → Bool
  | [] => needle.isEmpty
  | c :: rest => leadsWith needle (c :: rest) || containsSub needle rest

/-- Matching `re.search(pattern, s, re.IGNORECASE)` for the literal (metacharacter
free) expected-tag values the plugin is configured with: case-insensitive
substring containment. -/
def regexSearchCI (pattern s : String) : Bool :=
  containsSub (pyLower pattern) (pyLower s)

/-- Line 182: `similar(expected, actual) >= 0.8 or re.search(expected,
actual, re.IGNORECASE)`; `0.8 = 4/5` exactly (both the Python float literal
`0.8` and `ratio()` results compare equal iff the rationals do here). -/
def checkTag (expected actual : String) : Bool :=
  decide (mkRat 4 5 ≤ similar expected actual) || regexSearchCI expected actual

/-- Python dict lookup `d[k]`, `none` for the `KeyError` case. -/
def dlookup (d : List (String × String)) (k : String) : Option String :=
  match d with
  | [] => none
  | p :: rest => if p.1 = k then some p.2 else dlookup rest k

/-- The `status` dict of `analyze_measurements`: `error`, `exitCode`,
`flag` (lines 166-173). -/
structure Verdict where
  error : List String
  exitCode : Nat
  flag : Bool
  deriving DecidableEq

/-- One entry of the input record, conforming to the documented schema:
a `details` tag map and the three `Difference` free-text fields (the only
field of `femur`/`tibia`/`total` the source reads). -/
structure Row where
  details : List (String × String)
  femur : String
  tibia : String
  total : String
  deriving DecidableEq

def tagMismatchMsg (tag expected actual : String) : String :=
  tag ++ " does not match: Expected " ++ expected ++ ", actual " ++ actual

/-- Message `f"{ex} not available for match."` where `ex` is `KeyError(tag)`,
whose `str` is the quoted key. -/
def tagMissingMsg (tag : String) : String :=
  "\x27" ++ tag ++ "\x27 not available for match."

def unitMismatchMsg (expected actual : String) : String :=
  "Measurement units do not match: Expected " ++ expected ++ ", actual " ++ actual

def diffExceedsMsg : String :=
  "Actual difference exceeds allowed difference"

/-- Outcome of one check: `none` for pass, `some (message, exitCode)` for
fail. -/
def applyOutcome (st : Verdict) (o : Option (String × Nat)) : Verdict :=
  match o with
  | none => st
  | some mc => ⟨st.error ++ [mc.1], mc.2, false⟩

/-- One iteration of the `for row in tagStruct` loop (lines 180-194):
look the tag up in `details` (`KeyError` → message and exit code 4), else
check the match (mismatch → message and exit code 1). -/
def tagOutcome (details : List (String × String)) (kv : String × String) :
    Option (String × Nat) :=
  match dlookup details kv.1 with
  | some actual =>
    if checkTag kv.2 actual then none
    else some (tagMismatchMsg kv.1 kv.2 actual, 1)
  | none => some (tagMissingMsg kv.1, 4)

def tagStep (details : List (String × String)) (st : Verdict) (kv : String × String) :
    Verdict :=
  applyOutcome st (tagOutcome details kv)

/-- Lines 199-204: unit comparison, exit code 2 on mismatch. -/
def unitOutcome (m_unit unit : String) : Option (String × Nat) :=
  if m_unit ≠ unit then some (unitMismatchMsg unit m_unit, 2) else none

/-- Lines 214-220: the single three-way disjunction over the tolerances,
exit code 3; one shared message regardless of how many limbs exceed. -/
def thresholdOutcome (td tid fd tot tib fem : ℚ) : Option (String × Nat) :=
  if tot < td ∨ fem < fd ∨ tib < tid then some (diffExceedsMsg, 3) else none

/-- Lines 174-178: the `for row in data` loop overwrites
`details`/`femur`/`tibia`/`total` each iteration, so only the last entry
survives; `none` when `data` is empty (the dicts stay `{}`). -/
def lastRow (data : List (String × Row)) : Option Row :=
  data.foldl (fun _ p => some p.2) none

/-- Exception text for `total["Difference"]` on the initial empty dict (line 197, empty
input). -/
def keyErrorMsg : String := "KeyError: \x27Difference\x27"

/-- Exception text for `.group()` on the `None` returned by a failed `re.search` (lines 197,
207, 209, 211) — the uncaught `AttributeError`. -/
def attrErrorMsg (field : String) : String :=
  "AttributeError: \x27NoneType\x27 object has no attribute \x27group\x27 while extracting " ++ field

/-- Lines 180-223 for a non-empty record: run the tag loop, then extract
the unit and the three percentages (each failed `re.search` raises the
uncaught `AttributeError`, modelled as `Except.error`, discarding the
status accumulated so far exactly as the source does), then apply the unit
check and the threshold check.  In the source the unit comparison happens
textually before the percentage extractions; since it neither raises nor
feeds them, applying its outcome after the extractions is the same
function. -/
def analyzeRow (r : Row) (tagStruct : List (String × String)) (unit : String)
    (tot tib fem : ℚ) : Except String Verdict :=
  match extractUnit? r.total with
  | none => Except.error (attrErrorMsg "the total unit")
  | some m_unit =>
    match extractPercent? r.total with
    | none => Except.error (attrErrorMsg "the total percentage")
    | some td =>
      match extractPercent? r.tibia with
      | none => Except.error (attrErrorMsg "the tibia percentage")
      | some tid =>
        match extractPercent? r.femur with
        | none => Except.error (attrErrorMsg "the femur percentage")
        | some fd =>
          Except.ok (applyOutcome
            (applyOutcome (tagStruct.foldl (tagStep r.details) ⟨[], 0, true⟩)
              (unitOutcome m_unit unit))
            (thresholdOutcome td tid fd tot tib fem))

/-- The function `analyze_measurements(data, tagStruct, unit, tot_diff, tib_diff,
fem_diff)` (lines 161-223).  `Except.error` models an unhandled Python
exception escaping the function. -/
def analyze_measurements (data : List (String × Row)) (tagStruct : List (String × String))
    (unit : String) (tot tib fem : ℚ) : Except String Verdict :=
  match lastRow data with
  | none => Except.error keyErrorMsg
  | some r => analyzeRow r tagStruct unit tot tib fem

/-! Section: specification-side definitions -/

/-- Modelled from the spec (§4.5 step 1, §6 exit-code meanings): the
failure category of a single tag check — `4` when the tag is absent from
`details`, `1` when present but mismatched, none when it matches. -/
def tagFailCode (details : List (String × String)) (kv : String × String) : Option Nat :=
  match dlookup details kv.1 with
  | none => some 4
  | some actual => if checkTag kv.2 actual then none else some 1

/-- Modelled from the spec (§4.5 step 4): the failure categories in
evaluation order — every tag-check failure (in tag order), then `2` for a
unit mismatch, then `3` for an exceeded difference; `exitCode` is the last
of these, or `0` when the list is empty. -/
def failureCategories (details : List (String × String)) (tagStruct : List (String × String))
    (m_unit unit : String) (td tid fd tot tib fem : ℚ) : List Nat :=
  (tagStruct.map (tagFailCode details)).reduceOption
    ++ (if m_unit ≠ unit then [2] else [])
    ++ (if tot < td ∨ fem < fd ∨ tib < tid then [3] else [])

theorem commonPrefixLen_self (a : List Char) : commonPrefixLen a a = a.length := by
  induction a with
  | nil => rfl
  | cons c t ih => simp [commonPrefixLen, ih]

theorem commonPrefixLen_le (a : List Char) : ∀ b, commonPrefixLen a b ≤ a.length := by
  induction a with
  | nil => intro b; cases b <;> simp [commonPrefixLen]
  | cons c t ih =>
    intro b
    cases b with
    | nil => simp [commonPrefixLen]
    | cons d u =>
      by_cases h : c = d
      · simpa [commonPrefixLen, h] using ih u
      · simp [commonPrefixLen, h]

theorem pickMax_le {n : Nat} {x y : Nat × Nat × Nat}
    (hx : x.2.2 ≤ n) (hy : y.2.2 ≤ n) : (pickMax x y).2.2 ≤ n := by
  unfold pickMax; split <;> assumption

theorem pickMax_left {x y : Nat × Nat × Nat} (h : y.2.2 ≤ x.2.2) : pickMax x y = x := by
  unfold pickMax
  rw [if_neg (by omega)]

theorem rowBest_le (ai : List Char) :
    ∀ (bs : List Char) (i j : Nat), (rowBest i j ai bs).2.2 ≤ ai.length := by
  intro bs
  induction bs with
  | nil => intro i j; simpa [rowBest] using commonPrefixLen_le ai []
  | cons c rest ih =>
    intro i j
    exact pickMax_le (commonPrefixLen_le ai (c :: rest)) (ih i (j + 1))

theorem colBest_le (b : List Char) :
    ∀ (as : List Char) (i : Nat), (colBest i b as).2.2 ≤ as.length := by
  intro as
  induction as with
  | nil => intro i; simpa [colBest] using rowBest_le [] b i 0
  | cons c rest ih =>
    intro i
    exact pickMax_le (rowBest_le (c :: rest) b i 0)
      (Nat.le_trans (ih (i + 1)) (Nat.le_succ _))

theorem rowBest_self (a : List Char) : rowBest 0 0 a a = (0, 0, a.length) := by
  cases a with
  | nil => rfl
  | cons c t =>
    show pickMax (0, 0, commonPrefixLen (c :: t) (c :: t)) (rowBest 0 1 (c :: t) t)
        = (0, 0, (c :: t).length)
    rw [commonPrefixLen_self]
    exact pickMax_left (rowBest_le (c :: t) t 0 1)

theorem bestMatch_self (a : List Char) : bestMatch a a = (0, 0, a.length) := by
  cases a with
  | nil => rfl
  | cons c t =>
    show pickMax (rowBest 0 0 (c :: t) (c :: t)) (colBest 1 (c :: t) t)
        = (0, 0, (c :: t).length)
    rw [rowBest_self]
    exact pickMax_left (Nat.le_trans (colBest_le (c :: t) t 1) (Nat.le_succ _))

theorem matchSum_succ (fuel : Nat) (a b : List Char) :
    matchSum (fuel + 1) a b =
      if (bestMatch a b).2.2 = 0 then 0
      else
        matchSum fuel (a.take (bestMatch a b).1) (b.take (bestMatch a b).2.1) +
            (bestMatch a b).2.2 +
          matchSum fuel (a.drop ((bestMatch a b).1 + (bestMatch a b).2.2))
            (b.drop ((bestMatch a b).2.1 + (bestMatch a b).2.2)) := rfl

theorem matchSum_nil (fuel : Nat) : matchSum fuel [] [] = 0 := by
  cases fuel <;> rfl

theorem matchSum_self (fuel : Nat) (a : List Char) (hf : fuel ≠ 0) :
    matchSum fuel a a = a.length := by
  cases fuel with
  | zero => exact absurd rfl hf
  | succ f =>
    rw [matchSum_succ, bestMatch_self]
    by_cases h : a.length = 0
    · simp [h]
    · rw [if_neg h]
      simp [List.drop_length, matchSum_nil]

theorem ratioQ_self (l : List Char) : ratioQ l l = 1 := by
  unfold ratioQ
  by_cases h : l.length + l.length = 0
  · rw [if_pos h]
  · rw [if_neg h, matchSum_self _ _ h]
    have hl : l.length ≠ 0 := by omega
    rw [Rat.mkRat_eq_div]
    have h2 : ((l.length + l.length : Nat) : ℚ) = 2 * (l.length : ℚ) := by
      push_cast; ring
    rw [h2]
    push_cast
    rw [div_self]
    have : (l.length : ℚ) ≠ 0 := Nat.cast_ne_zero.mpr hl
    positivity

/-! Section: general lemmas about the outcome fold of the validation engine -/

theorem foldl_applyOutcome (os : List (Option (String × Nat))) (st : Verdict) :
    os.foldl applyOutcome st =
      ⟨st.error ++ os.reduceOption.map Prod.fst,
        (os.reduceOption.map Prod.snd).getLastD st.exitCode,
        st.flag && os.reduceOption.isEmpty⟩ := by
  induction os generalizing st with
  | nil => simp [List.reduceOption_nil]
  | cons o t ih =>
    cases o with
    | none =>
      rw [List.foldl_cons]
      show t.foldl applyOutcome st = _
      rw [ih, List.reduceOption_cons_of_none]
    | some mc =>
      rw [List.foldl_cons]
      show t.foldl applyOutcome ⟨st.error ++ [mc.1], mc.2, false⟩ = _
      rw [ih, List.reduceOption_cons_of_some]
      simp only [List.map_cons, List.getLastD_cons, List.append_assoc,
        List.singleton_append, List.isEmpty_cons, Bool.and_false, Bool.false_and]

theorem foldl_applyOutcome_none (os : List (Option (String × Nat))) (st : Verdict)
    (h : ∀ o ∈ os, o = none) : os.foldl applyOutcome st = st := by
  induction os with
  | nil => rfl
  | cons o t ih =>
    have ho := h o (List.mem_cons_self o t)
    subst ho
    rw [List.foldl_cons]
    exact ih fun o ho => h o (List.mem_cons_of_mem _ ho)

theorem foldl_tagStep_eq (details : List (String × String))
    (tagStruct : List (String × String)) (st : Verdict) :
    tagStruct.foldl (tagStep details) st
      = (tagStruct.map (tagOutcome details)).foldl applyOutcome st := by
  rw [List.foldl_map]
  rfl

theorem analyze_eq_of (data : List (String × Row)) (r : Row)
    (tagStruct : List (String × String)) (unit : String) (tot tib fem : ℚ)
    (m_unit : String) (td tid fd : ℚ)
    (hr : lastRow data = some r)
    (hu : extractUnit? r.total = some m_unit)
    (h1 : extractPercent? r.total = some td)
    (h2 : extractPercent? r.tibia = some tid)
    (h3 : extractPercent? r.femur = some fd) :
    analyze_measurements data tagStruct unit tot tib fem =
      Except.ok ((tagStruct.map (tagOutcome r.details)
          ++ [unitOutcome m_unit unit, thresholdOutcome td tid fd tot tib fem]).foldl
        applyOutcome ⟨[], 0, true⟩) := by
  simp only [analyze_measurements, analyzeRow, hr, hu, h1, h2, h3]
  rw [List.foldl_append, foldl_tagStep_eq]
  rfl

theorem analyze_ok_inv (data : List (String × Row)) (tagStruct : List (String × String))
    (unit : String) (tot tib fem : ℚ) (v : Verdict)
    (h : analyze_measurements data tagStruct unit tot tib fem = Except.ok v) :
    ∃ r m_unit td tid fd, lastRow data = some r
      ∧ extractUnit? r.total = some m_unit
      ∧ extractPercent? r.total = some td
      ∧ extractPercent? r.tibia = some tid
      ∧ extractPercent? r.femur = some fd := by
  unfold analyze_measurements at h
  split at h
  · exact Except.noConfusion h
  · rename_i r hr
    unfold analyzeRow at h
    split at h
    · exact Except.noConfusion h
    · rename_i m_unit hu
      split at h
      · exact Except.noConfusion h
      · rename_i td h1
        split at h
        · exact Except.noConfusion h
        · rename_i tid h2
          split at h
          · exact Except.noConfusion h
          · rename_i fd h3
            exact ⟨r, m_unit, td, tid, fd, hr, hu, h1, h2, h3⟩

theorem tagOutcome_code (details : List (String × String)) (kv : String × String)
    (mc : String × Nat) (h : tagOutcome details kv = some mc) :
    mc.2 = 1 ∨ mc.2 = 4 := by
  unfold tagOutcome at h
  split at h
  · split at h
    · exact Option.noConfusion h
    · rw [Option.some.injEq] at h
      subst h
      exact Or.inl rfl
  · rw [Option.some.injEq] at h
    subst h
    exact Or.inr rfl

theorem unitOutcome_code (m_unit unit : String) (mc : String × Nat)
    (h : unitOutcome m_unit unit = some mc) : mc.2 = 2 := by
  unfold unitOutcome at h
  split at h
  · rw [Option.some.injEq] at h
    subst h
    rfl
  · exact Option.noConfusion h

theorem thresholdOutcome_code (td tid fd tot tib fem : ℚ) (mc : String × Nat)
    (h : thresholdOutcome td tid fd tot tib fem = some mc) : mc.2 = 3 := by
  unfold thresholdOutcome at h
  split at h
  · rw [Option.some.injEq] at h
    subst h
    rfl
  · exact Option.noConfusion h

theorem allOutcomes_code_ne_zero (d ts : List (String × String)) (mu u : String)
    (td tid fd tot tib fem : ℚ) :
    ∀ mc ∈ (ts.map (tagOutcome d)
        ++ [unitOutcome mu u, thresholdOutcome td tid fd tot tib fem]).reduceOption,
      mc.2 ≠ 0 := by
  intro mc hmc
  rw [List.reduceOption_mem_iff] at hmc
  rcases List.mem_append.mp hmc with hA | hB
  · rcases List.mem_map.mp hA with ⟨kv, _, hkv⟩
    rcases tagOutcome_code d kv mc hkv with h | h <;> omega
  · rcases List.mem_cons.mp hB with h | h
    · have := unitOutcome_code mu u mc h.symm
      omega
    · rcases List.mem_cons.mp h with h | h
      · have := thresholdOutcome_code td tid fd tot tib fem mc h.symm
        omega
      · exact absurd h (List.not_mem_nil _)

theorem getLastD_ne_zero (l : List Nat) (h : ∀ c ∈ l, c ≠ 0) :
    ∀ d, l ≠ [] → l.getLastD d ≠ 0 := by
  induction l with
  | nil => intro d hl; exact absurd rfl hl
  | cons c t ih =>
    intro d _
    rw [List.getLastD_cons]
    cases t with
    | nil => exact h c (List.mem_cons_self c [])
    | cons b u =>
      exact ih (fun x hx => h x (List.mem_cons_of_mem _ hx)) c (by simp)

theorem tagFailCode_eq_snd (d : List (String × String)) (kv : String × String) :
    tagFailCode d kv = (tagOutcome d kv).map Prod.snd := by
  unfold tagFailCode tagOutcome
  cases dlookup d kv.1 with
  | none => rfl
  | some actual => by_cases hc : checkTag kv.2 actual <;> simp [hc]

theorem tagCodes_eq (d ts : List (String × String)) :
    (ts.map (tagFailCode d)).reduceOption
      = ((ts.map (tagOutcome d)).reduceOption).map Prod.snd := by
  induction ts with
  | nil => rfl
  | cons kv t ih =>
    rw [List.map_cons, List.map_cons, tagFailCode_eq_snd]
    cases h : tagOutcome d kv with
    | none => simp [List.reduceOption_cons_of_none, ih]
    | some mc => simp [List.reduceOption_cons_of_some, ih]

theorem failureCategories_eq (d ts : List (String × String)) (mu u : String)
    (td tid fd tot tib fem : ℚ) :
    failureCategories d ts mu u td tid fd tot tib fem
      = ((ts.map (tagOutcome d)
          ++ [unitOutcome mu u, thresholdOutcome td tid fd tot tib fem]).reduceOption).map
        Prod.snd := by
  unfold failureCategories
  rw [List.reduceOption_append, List.map_append, tagCodes_eq]
  have htail : ((if mu ≠ u then [2] else [])
        ++ (if tot < td ∨ fem < fd ∨ tib < tid then [3] else []))
      = List.map Prod.snd
          ([unitOutcome mu u, thresholdOutcome td tid fd tot tib fem].reduceOption) := by
    by_cases h2 : mu ≠ u <;> by_cases h3 : tot < td ∨ fem < fd ∨ tib < tid <;>
      simp [unitOutcome, thresholdOutcome, h2, h3,
        List.reduceOption_cons_of_some, List.reduceOption_cons_of_none, List.reduceOption_nil]
  rw [List.append_assoc, htail]

/-! Section: the claims -/

/-- C1: for every record (only its surviving last entry matters, see
`lastRow`) in which every expected tag matches its actual value
(similarity ratio at least `0.8 = 4/5`, or case-insensitive containment),
the extracted unit equals the expected unit string, and the total, tibia
and femur percentage differences are each within their tolerances,
`analyze_measurements` returns the verdict with `flag = true`, an empty
error list and `exitCode = 0`. -/
theorem all_checks_pass_ok (data : List (String × Row)) (r : Row)
    (tagStruct : List (String × String)) (unit : String) (tot tib fem td tid fd : ℚ)
    (hr : lastRow data = some r)
    (htags : ∀ kv ∈ tagStruct, ∃ actual, dlookup r.details kv.1 = some actual
        ∧ checkTag kv.2 actual = true)
    (hu : extractUnit? r.total = some unit)
    (h1 : extractPercent? r.total = some td) (hd1 : td ≤ tot)
    (h2 : extractPercent? r.tibia = some tid) (hd2 : tid ≤ tib)
    (h3 : extractPercent? r.femur = some fd) (hd3 : fd ≤ fem) :
    analyze_measurements data tagStruct unit tot tib fem = Except.ok ⟨[], 0, true⟩ := by
  rw [analyze_eq_of data r tagStruct unit tot tib fem unit td tid fd hr hu h1 h2 h3]
  rw [foldl_applyOutcome_none]
  intro o ho
  rcases List.mem_append.mp ho with hA | hB
  · rcases List.mem_map.mp hA with ⟨kv, hkv, rfl⟩
    rcases htags kv hkv with ⟨actual, ha, hc⟩
    simp [tagOutcome, ha, hc]
  · rcases List.mem_cons.mp hB with h | h
    · subst h
      unfold unitOutcome
      rw [if_neg fun hne => hne rfl]
    · rcases List.mem_cons.mp h with h | h
      · subst h
        unfold thresholdOutcome
        rw [if_neg (by push_neg; exact ⟨hd1, hd3, hd2⟩)]
      · exact absurd h (List.not_mem_nil _)

/-- Witness for C1: a concrete record passing every check (tag equal,
unit `mm`, all three differences `1.45 = 29/20 ≤ 2`) yields the clean
verdict. -/
theorem all_checks_pass_ok_witness :
    analyze_measurements
        [("1", ⟨[("PatientName", "John")], "3.2 mm 1.45%", "3.2 mm 1.45%", "3.2 mm 1.45%"⟩)]
        [("PatientName", "John")] "mm" 2 2 2 = Except.ok ⟨[], 0, true⟩ := by
  refine all_checks_pass_ok _
      ⟨[("PatientName", "John")], "3.2 mm 1.45%", "3.2 mm 1.45%", "3.2 mm 1.45%"⟩
      _ _ 2 2 2 (mkRat 29 20) (mkRat 29 20) (mkRat 29 20) rfl ?_
      (by decide) (by decide) (by decide) (by decide) (by decide) (by decide) (by decide)
  intro kv hkv
  rw [List.mem_singleton] at hkv
  subst hkv
  exact ⟨"John", rfl, by decide⟩

/-- C2 (the claim fails on the source): when a Difference text matches
neither extraction pattern, the source calls `.group()` on `None` and the
resulting `AttributeError` escapes `analyze_measurements` unhandled
(modelled as `Except.error`) instead of being recorded as a verdict error
entry.  Both failure shapes are exhibited: no `\d+ \w+` match and no
`\d+\.\d+%` match. -/
theorem extraction_failure_is_unhandled :
    analyze_measurements [("row1", ⟨[], "x", "x", "no numbers here"⟩)] [] "mm" 10 10 10
        = Except.error (attrErrorMsg "the total unit")
    ∧ analyze_measurements [("row1", ⟨[], "x", "x", "5 mm only"⟩)] [] "mm" 10 10 10
        = Except.error (attrErrorMsg "the total percentage") :=
  ⟨rfl, rfl⟩

/-- C3 (the claim fails on the source): a chunk that splits into more than
two parts is accepted silently — `"A:x:y"` parses to the mapping
`{"A": "x"}` with the third part discarded, not a `MalformedTagSpecError`.
Only a chunk with fewer than two parts takes the failure path, and then
the whole parse is indeed aborted with no partial mapping (`none`). -/
theorem malformed_tagSpec_accepted :
    tagInfo_to_tagStruct "A:x:y" "," ":" = some [("A", "x")]
    ∧ tagInfo_to_tagStruct "A:x,B" "," ":" = none :=
  ⟨by decide, by decide⟩

/-- C4: every verdict actually returned by `analyze_measurements`
satisfies the invariant: the flag is true exactly when the error list is
empty and exactly when the exit code is zero. -/
theorem verdict_invariant (data : List (String × Row)) (tagStruct : List (String × String))
    (unit : String) (tot tib fem : ℚ) (v : Verdict)
    (h : analyze_measurements data tagStruct unit tot tib fem = Except.ok v) :
    (v.flag = true ↔ v.error = []) ∧ (v.flag = true ↔ v.exitCode = 0) := by
  obtain ⟨r, m_unit, td, tid, fd, hr, hu, h1, h2, h3⟩ :=
    analyze_ok_inv data tagStruct unit tot tib fem v h
  rw [analyze_eq_of data r tagStruct unit tot tib fem m_unit td tid fd hr hu h1 h2 h3,
    Except.ok.injEq] at h
  subst h
  rw [foldl_applyOutcome]
  have hnz := allOutcomes_code_ne_zero r.details tagStruct m_unit unit td tid fd tot tib fem
  cases hL : (tagStruct.map (tagOutcome r.details)
      ++ [unitOutcome m_unit unit, thresholdOutcome td tid fd tot tib fem]).reduceOption with
  | nil => simp
  | cons mc t =>
    rw [hL] at hnz
    have hcode : (List.map Prod.snd (mc :: t)).getLastD 0 ≠ 0 := by
      refine getLastD_ne_zero _ ?_ 0 (by simp)
      intro c hc
      rcases List.mem_map.mp hc with ⟨mc2, hmc2, rfl⟩
      exact hnz mc2 hmc2
    have hcode2 : ¬(mc.2 :: List.map Prod.snd t).getLast?.getD 0 = 0 := by
      simpa using hcode
    simp [hcode2]

/-- Witness for C4: the invariant instantiated at a concrete passing
record. -/
theorem verdict_invariant_witness :
    ((Verdict.mk [] 0 true).flag = true ↔ (Verdict.mk [] 0 true).error = [])
    ∧ ((Verdict.mk [] 0 true).flag = true ↔ (Verdict.mk [] 0 true).exitCode = 0) :=
  verdict_invariant [("1", ⟨[], "5 mm 2.50%", "5 mm 2.50%", "5 mm 2.50%"⟩)] [] "mm" 3 3 3
    ⟨[], 0, true⟩ (by rfl)

/-- C5: on every run that returns a verdict, all checks were evaluated and
`exitCode` is the category of the last failure in evaluation order (tag
failures in tag order with 1 for a mismatch and 4 for a failed lookup,
then 2 for a unit mismatch, then 3 for an exceeded difference), with 0
exactly when no failure occurred. -/
theorem exitCode_is_last_failure (data : List (String × Row)) (r : Row)
    (tagStruct : List (String × String)) (unit : String) (tot tib fem : ℚ)
    (m_unit : String) (td tid fd : ℚ) (v : Verdict)
    (hr : lastRow data = some r)
    (hu : extractUnit? r.total = some m_unit)
    (h1 : extractPercent? r.total = some td)
    (h2 : extractPercent? r.tibia = some tid)
    (h3 : extractPercent? r.femur = some fd)
    (hv : analyze_measurements data tagStruct unit tot tib fem = Except.ok v) :
    v.exitCode
        = (failureCategories r.details tagStruct m_unit unit td tid fd tot tib fem).getLastD 0
    ∧ (v.exitCode = 0
        ↔ failureCategories r.details tagStruct m_unit unit td tid fd tot tib fem = []) := by
  rw [analyze_eq_of data r tagStruct unit tot tib fem m_unit td tid fd hr hu h1 h2 h3,
    Except.ok.injEq] at hv
  subst hv
  rw [foldl_applyOutcome, failureCategories_eq]
  constructor
  · rfl
  · have hnz := allOutcomes_code_ne_zero r.details tagStruct m_unit unit td tid fd tot tib fem
    cases hL : (tagStruct.map (tagOutcome r.details)
        ++ [unitOutcome m_unit unit, thresholdOutcome td tid fd tot tib fem]).reduceOption with
    | nil => simp
    | cons mc t =>
      rw [hL] at hnz
      have hcode : (List.map Prod.snd (mc :: t)).getLastD 0 ≠ 0 := by
        refine getLastD_ne_zero _ ?_ 0 (by simp)
        intro c hc
        rcases List.mem_map.mp hc with ⟨mc2, hmc2, rfl⟩
        exact hnz mc2 hmc2
      have hcode2 : ¬(mc.2 :: List.map Prod.snd t).getLast?.getD 0 = 0 := by
        simpa using hcode
      simp [hcode2]

/-- Witness for C5: the §8 spec scenario — unit `cm` against expected
`mm`, differences `2.50 = 5/2` within tolerance 3 — whose only failure is
the unit mismatch, so the exit code is 2. -/
theorem exitCode_is_last_failure_witness :
    (Verdict.mk [unitMismatchMsg "mm" "cm"] 2 false).exitCode
        = (failureCategories [] [] "cm" "mm"
            (mkRat 5 2) (mkRat 5 2) (mkRat 5 2) 3 3 3).getLastD 0
    ∧ ((Verdict.mk [unitMismatchMsg "mm" "cm"] 2 false).exitCode = 0
        ↔ failureCategories [] [] "cm" "mm"
            (mkRat 5 2) (mkRat 5 2) (mkRat 5 2) 3 3 3 = []) :=
  exitCode_is_last_failure [("1", ⟨[], "5 cm 2.50%", "5 cm 2.50%", "5 cm 2.50%"⟩)]
    ⟨[], "5 cm 2.50%", "5 cm 2.50%", "5 cm 2.50%"⟩ [] "mm" 3 3 3 "cm"
    (mkRat 5 2) (mkRat 5 2) (mkRat 5 2) ⟨[unitMismatchMsg "mm" "cm"], 2, false⟩
    rfl (by decide) (by decide) (by decide) (by decide) (by rfl)

/-- C6: the similarity scorer is case-insensitive and scores every string
as `1.0` against itself — `score("Apple", "apple") = 1` — and scores the
pair `("Apple", "Appel")` exactly `0.8 = 4/5`. -/
theorem similarity_scorer_properties :
    (∀ s : String, similar s s = 1)
    ∧ similar "Apple" "apple" = 1
    ∧ similar "Apple" "Appel" = 4 / 5 := by
  refine ⟨fun s => ratioQ_self (pyLower s), by decide, ?_⟩
  have h : similar "Apple" "Appel" = mkRat 4 5 := by decide
  rw [h, Rat.mkRat_eq_div]
  norm_num

/-- Witness for C6: the reflexivity part applied at a concrete string. -/
theorem similarity_scorer_properties_witness : similar "femur" "femur" = 1 :=
  similarity_scorer_properties.1 "femur"

/-- C7: on the Difference text `"3.2 mm 1.45%"` the unit extractor returns
`"mm"` (the word token of the first digits-space-word occurrence) and the
percentage extractor returns `1.45 = 29/20` (the first
digits-dot-digits-percent occurrence with the `%` stripped). -/
theorem extractor_worked_example :
    extractUnit? "3.2 mm 1.45%" = some "mm"
    ∧ extractPercent? "3.2 mm 1.45%" = some (29 / 20) := by
  refine ⟨by decide, ?_⟩
  have h : extractPercent? "3.2 mm 1.45%" = some (mkRat 29 20) := by decide
  rw [h]
  exact congrArg some (by rw [Rat.mkRat_eq_div]; norm_num)

/-- C8: a well-formed tag specification splits on the pair separator and
the key/value separator with whitespace trimmed everywhere:
`"A:x,B:y"` and `" A : x , B : y "` both parse to
`{"A" : "x", "B" : "y"}`. -/
theorem tagSpec_parse_examples :
    tagInfo_to_tagStruct "A:x,B:y" "," ":" = some [("A", "x"), ("B", "y")]
    ∧ tagInfo_to_tagStruct " A : x , B : y " "," ":" = some [("A", "x"), ("B", "y")] :=
  ⟨by decide, by decide⟩

/-- C9: `analyze_measurements` uses only the last-seen entry of the input
record; any earlier entries are overwritten by the row loop and never
influence the verdict. -/
theorem only_last_entry_validated (pre : List (String × Row)) (x : String × Row)
    (tagStruct : List (String × String)) (unit : String) (tot tib fem : ℚ) :
    analyze_measurements (pre ++ [x]) tagStruct unit tot tib fem
      = analyze_measurements [x] tagStruct unit tot tib fem := by
  unfold analyze_measurements
  have h : lastRow (pre ++ [x]) = some x.2 := by
    unfold lastRow
    rw [List.foldl_append]
    rfl
  rw [h]
  rfl

/-- Witness for C9: prepending an entry that would fail every check to a
record leaves the verdict of the final entry unchanged. -/
theorem only_last_entry_validated_witness :
    analyze_measurements ([("0", ⟨[], "x", "x", "x"⟩)]
        ++ [("1", ⟨[], "5 mm 2.50%", "5 mm 2.50%", "5 mm 2.50%"⟩)]) [] "mm" 3 3 3
      = analyze_measurements [("1", ⟨[], "5 mm 2.50%", "5 mm 2.50%", "5 mm 2.50%"⟩)]
          [] "mm" 3 3 3 :=
  only_last_entry_validated [("0", ⟨[], "x", "x", "x"⟩)]
    ("1", ⟨[], "5 mm 2.50%", "5 mm 2.50%", "5 mm 2.50%"⟩) [] "mm" 3 3 3

/-- C10: on every run that returns a verdict, the error list has exactly
one entry per failed tag check, at most one for the unit check, and at
most one for the threshold check — the three tolerance comparisons form a
single disjunction contributing a single shared message even when two or
all three differences exceed their tolerances. -/
theorem threshold_single_message (data : List (String × Row)) (r : Row)
    (tagStruct : List (String × String)) (unit : String) (tot tib fem : ℚ)
    (m_unit : String) (td tid fd : ℚ) (v : Verdict)
    (hr : lastRow data = some r)
    (hu : extractUnit? r.total = some m_unit)
    (h1 : extractPercent? r.total = some td)
    (h2 : extractPercent? r.tibia = some tid)
    (h3 : extractPercent? r.femur = some fd)
    (hv : analyze_measurements data tagStruct unit tot tib fem = Except.ok v) :
    v.error.length = ((tagStruct.map (tagOutcome r.details)).reduceOption).length
      + (if m_unit ≠ unit then 1 else 0)
      + (if tot < td ∨ fem < fd ∨ tib < tid then 1 else 0) := by
  rw [analyze_eq_of data r tagStruct unit tot tib fem m_unit td tid fd hr hu h1 h2 h3,
    Except.ok.injEq] at hv
  subst hv
  rw [foldl_applyOutcome]
  simp only [List.nil_append, List.length_map, List.reduceOption_append, List.length_append]
  by_cases hmu : m_unit ≠ unit <;> by_cases hth : tot < td ∨ fem < fd ∨ tib < tid <;>
    simp [unitOutcome, thresholdOutcome, hmu, hth, List.reduceOption_cons_of_some,
      List.reduceOption_cons_of_none, List.reduceOption_nil]

/-- Witness for C10: a record in which all three differences
(`5.45 = 109/20`) exceed the tolerance 1 yields exactly one error
message. -/
theorem threshold_single_message_witness :
    (Verdict.mk [diffExceedsMsg] 3 false).error.length
      = ((([] : List (String × String)).map (tagOutcome [])).reduceOption).length
        + (if ("mm" : String) ≠ "mm" then 1 else 0)
        + (if (1 : ℚ) < mkRat 109 20 ∨ (1 : ℚ) < mkRat 109 20 ∨ (1 : ℚ) < mkRat 109 20
            then 1 else 0) :=
  threshold_single_message [("1", ⟨[], "3.2 mm 5.45%", "3.2 mm 5.45%", "3.2 mm 5.45%"⟩)]
    ⟨[], "3.2 mm 5.45%", "3.2 mm 5.45%", "3.2 mm 5.45%"⟩ [] "mm" 1 1 1 "mm"
    (mkRat 109 20) (mkRat 109 20) (mkRat 109 20) ⟨[diffExceedsMsg], 3, false⟩
    rfl (by decide) (by decide) (by decide) (by decide) (by rfl)

end LLD
